import Mathlib

/-!
Shallow embedding of the artifact hosting subsystem of the
`solace-agent-mesh-plugins` repository (plugin `artifact-host-agent`,
files `tools.py` and `web_server.py`), together with proofs of the
behavioural properties claimed for it.

Bytes are modelled as `List Nat` (values < 256), Python strings as Lean
`String`/`List Char`, Python dictionaries used as structured results as
association lists, and the effects of a hosting call (calls into the
external artifact service and writes into the hosting directory) as an
explicit event trace.
-/

/-- Single quote character, used inside Python error message literals. -/
def pyQuote : String := String.mk [Char.ofNat 39]

/-- Models Python's `\s` / `str.strip()` whitespace class (ASCII part:
space, tab, newline, carriage return, vertical tab, form feed). -/
def isPySpace (c : Char) : Bool :=
  c = ' ' || c = '\t' || c = '\n' || c = '\r' || c = Char.ofNat 11 || c = Char.ofNat 12

/-- Models Python `str.strip()`: drop whitespace from both ends. -/
def pyStrip (l : List Char) : List Char :=
  ((l.dropWhile isPySpace).reverse.dropWhile isPySpace).reverse

/-- Models Python `base_url.rstrip("/")`: drop all trailing slashes. -/
def rstripSlash (s : String) : String :=
  String.mk ((s.data.reverse.dropWhile (· = '/')).reverse)

/-- Models `artifact_filename.rsplit(":", 1)` (tools.py line 87/216):
split at the last colon, if any. Returns the part before the last colon
and, when a colon is present, the part after it. -/
def pyRsplitColon (s : String) : String × Option String :=
  let r := s.data.reverse
  let afterRev := r.takeWhile (· ≠ ':')
  match r.dropWhile (· ≠ ':') with
  | ':' :: baseRev => (String.mk baseRev.reverse, some (String.mk afterRev.reverse))
  | _ => (s, none)

/-- Digits of a decimal literal folded to a natural number. -/
def digitsToNat (l : List Char) : Nat :=
  l.foldl (fun a c => a * 10 + (c.toNat - 48)) 0

/-- Models Python `int(s)` for base 10: optional surrounding whitespace,
optional sign, then at least one digit; `none` models the `ValueError`. -/
def pyInt? (s : String) : Option Int :=
  let t := pyStrip s.data
  let signDigits : Int × List Char :=
    match t with
    | '-' :: rest => (-1, rest)
    | '+' :: rest => (1, rest)
    | _ => (1, t)
  if signDigits.2 ≠ [] ∧ signDigits.2.all Char.isDigit then
    some (signDigits.1 * (digitsToNat signDigits.2 : Int))
  else
    none

/-- Models Python `max(versions)` for a nonempty list of integers
(the value on `[]` is irrelevant: the code guards `if not versions`). -/
def pyMax : List Int → Int
  | [] => 0
  | x :: xs => xs.foldl max x

/-- Models `pathlib.Path(p).suffix`: the extension of the final path
component, i.e. `name[i:]` for `i = name.rfind(".")` when
`0 < i < len(name) - 1`, else the empty string. -/
def pathSuffix (p : String) : String :=
  let name := (p.data.reverse.takeWhile (· ≠ '/')).reverse
  let extRev := name.reverse.takeWhile (· ≠ '.')
  if name.contains '.' then
    let i := name.length - extRev.length - 1
    if 0 < i ∧ i < name.length - 1 then String.mk ('.' :: extRev.reverse) else ""
  else ""

/-- Models tools.py lines 258-265: the hosted filename is the custom
filename when that is truthy, else the base filename; a truthy custom
name without a dot inherits the base filename's suffix when the base
has a dot. -/
def resolveHostedFilename (custom_filename : Option String) (filename_base : String) : String :=
  match custom_filename with
  | none => filename_base
  | some c =>
    if c = "" then filename_base
    else if ¬ c.data.contains '.' ∧ filename_base.data.contains '.' then c ++ pathSuffix filename_base
    else c

/-- Models `hosted_filename.lower().endswith((".html", ".htm"))`
(tools.py line 273); lowering is ASCII, which covers the suffixes
tested. -/
def isHtmlName (name : String) : Bool :=
  let lowered := name.data.map Char.toLower
  ".html".data.isSuffixOf lowered || ".htm".data.isSuffixOf lowered

/-! ### UTF-8, modelling `bytes.decode("utf-8")` / `str.encode("utf-8")` -/

/-- Is the byte a UTF-8 continuation byte `0x80..0xBF`? -/
def isCont (b : Nat) : Bool := 0x80 ≤ b && b < 0xC0

/-- Valid second byte of a three-byte sequence with lead byte `b`
(excludes overlong encodings and surrogates, as CPython's strict
decoder does). -/
def utf8Snd3 (b b1 : Nat) : Bool :=
  if b = 0xE0 then 0xA0 ≤ b1 && b1 < 0xC0
  else if b = 0xED then 0x80 ≤ b1 && b1 < 0xA0
  else isCont b1

/-- Valid second byte of a four-byte sequence with lead byte `b`
(excludes overlong encodings and code points above U+10FFFF). -/
def utf8Snd4 (b b1 : Nat) : Bool :=
  if b = 0xF0 then 0x90 ≤ b1 && b1 < 0xC0
  else if b = 0xF4 then 0x80 ≤ b1 && b1 < 0x90
  else isCont b1

/-- Decode one UTF-8 scalar from the front of the byte list, returning
the code point and the remaining bytes, or `none` on malformed input. -/
def utf8DecodeOne : List Nat → Option (Nat × List Nat)
  | [] => none
  | b :: bs =>
    if b < 0x80 then some (b, bs)
    else if b < 0xC2 then none
    else if b < 0xE0 then
      match bs with
      | b1 :: bs1 => if isCont b1 then some ((b - 0xC0) * 0x40 + (b1 - 0x80), bs1) else none
      | [] => none
    else if b < 0xF0 then
      match bs with
      | b1 :: b2 :: bs2 =>
        if utf8Snd3 b b1 && isCont b2 then
          some ((b - 0xE0) * 0x1000 + (b1 - 0x80) * 0x40 + (b2 - 0x80), bs2)
        else none
      | _ => none
    else if b < 0xF5 then
      match bs with
      | b1 :: b2 :: b3 :: bs3 =>
        if utf8Snd4 b b1 && isCont b2 && isCont b3 then
          some ((b - 0xF0) * 0x40000 + (b1 - 0x80) * 0x1000 + (b2 - 0x80) * 0x40 + (b3 - 0x80), bs3)
        else none
      | _ => none
    else none

theorem utf8DecodeOne_length {l : List Nat} {cp : Nat} {rest : List Nat}
    (h : utf8DecodeOne l = some (cp, rest)) : rest.length < l.length := by
  unfold utf8DecodeOne at h
  repeat' split at h
  all_goals simp_all
  all_goals omega

/-- Fuelled decoding loop; each step consumes at least one byte, so
fuel equal to the input length never runs out. -/
def utf8DecodeFuel : Nat → List Nat → Option (List Char)
  | _, [] => some []
  | 0, _ :: _ => none
  | fuel + 1, b :: bs =>
    match utf8DecodeOne (b :: bs) with
    | none => none
    | some (cp, rest) => (utf8DecodeFuel fuel rest).map (Char.ofNat cp :: ·)

/-- Models strict `bytes.decode("utf-8")`: `none` models the
`UnicodeDecodeError`. -/
def utf8Decode? (l : List Nat) : Option (List Char) :=
  utf8DecodeFuel l.length l

/-- The UTF-8 encoding of one scalar value. -/
def utf8EncodeChar (c : Char) : List Nat :=
  let n := c.toNat
  if n < 0x80 then [n]
  else if n < 0x800 then [0xC0 + n / 0x40, 0x80 + n % 0x40]
  else if n < 0x10000 then [0xE0 + n / 0x1000, 0x80 + (n / 0x40) % 0x40, 0x80 + n % 0x40]
  else [0xF0 + n / 0x40000, 0x80 + (n / 0x1000) % 0x40, 0x80 + (n / 0x40) % 0x40, 0x80 + n % 0x40]

/-- Models `str.encode("utf-8")`. -/
def utf8Encode (s : List Char) : List Nat :=
  (s.map utf8EncodeChar).flatten

/-! ### The reference-token scanner

Models the two regular expressions of tools.py used over HTML content.
Extraction (line 30) matches the opening marker, a greedy nonempty group
of characters other than the closing markers, optional whitespace, and
three arrow characters; replacement (line 62) additionally matches an
arbitrary trailer and the closing marker.  Backtracking of the greedy
group is modelled by trying the longest group first; backtracking of the
whitespace run collapses to taking the maximal run, since a shorter run
would be followed by a whitespace character where an arrow is required,
and similarly the trailer run collapses to the maximal run of
non-closing characters. -/

/-- The literal opening marker of a reference token. -/
def refOpen : List Char := "«artifact_content:".data

/-- Characters admitted inside the captured filename group
(anything other than the two closing marker characters). -/
def isRefGroupChar (c : Char) : Bool := c ≠ '›' && c ≠ '»'

/-- Match a literal character sequence at the head, returning the rest. -/
def matchLiteral : List Char → List Char → Option (List Char)
  | [], s => some s
  | _ :: _, [] => none
  | p :: ps, c :: cs => if c = p then matchLiteral ps cs else none

/-- Match the whitespace-then-arrows part of the pattern at the head. -/
def matchWsArrows (s : List Char) : Option (List Char) :=
  matchLiteral ">>>".data (s.dropWhile isPySpace)

/-- Match whitespace, arrows, a greedy non-closing trailer and the
closing marker at the head (the tail of the replacement pattern). -/
def matchCloseTail (s : List Char) : Option (List Char) :=
  match matchWsArrows s with
  | none => none
  | some r =>
    match r.dropWhile (· ≠ '»') with
    | '»' :: rest => some rest
    | _ => none

/-- Greedy backtracking over the captured group: `revGroup` is the
current (reversed) group candidate, longest first; on failure of the
tail matcher the last group character is returned to the input. -/
def tryGroup (tailMatch : List Char → Option (List Char)) :
    List Char → List Char → Option (List Char × List Char)
  | [], _ => none
  | c :: revG, rest =>
    match tailMatch rest with
    | some after => some ((c :: revG).reverse, after)
    | none => tryGroup tailMatch revG (c :: rest)

/-- Match the extraction pattern at the head of the input, returning the
captured group and the input after the match. -/
def matchRefAt (s : List Char) : Option (List Char × List Char) :=
  match matchLiteral refOpen s with
  | none => none
  | some t => tryGroup matchWsArrows (t.takeWhile isRefGroupChar).reverse (t.dropWhile isRefGroupChar)

/-- Match the replacement pattern (with trailer and closing marker) at
the head of the input. -/
def matchTokenAt (s : List Char) : Option (List Char × List Char) :=
  match matchLiteral refOpen s with
  | none => none
  | some t => tryGroup matchCloseTail (t.takeWhile isRefGroupChar).reverse (t.dropWhile isRefGroupChar)

/-- Left-to-right non-overlapping scan of `re.findall`, fuelled by the
input length (every step consumes at least one character, so the fuel
never runs out when initialised with the input length). -/
def findRefsFuel : Nat → List Char → List (List Char)
  | 0, _ => []
  | _ + 1, [] => []
  | fuel + 1, c :: cs =>
    match matchRefAt (c :: cs) with
    | some (g, rest) => g :: findRefsFuel fuel rest
    | none => findRefsFuel fuel cs

/-- The raw stripped match list: `[match.strip() for match in matches]`
(tools.py line 34). -/
def extractedRaw (html_content : String) : List String :=
  (findRefsFuel html_content.data.length html_content.data).map fun g => String.mk (pyStrip g)

/-- Models `list(dict.fromkeys(filenames))` (tools.py line 35):
iterate over the list inserting each element not already present,
keeping first occurrences in order. -/
def dedupKeepFirst (l : List String) : List String :=
  l.foldl (fun acc x => if x ∈ acc then acc else acc ++ [x]) []

/-- Models `_extract_artifact_references` (tools.py lines 17-38). -/
def _extract_artifact_references (html_content : String) : List String :=
  dedupKeepFirst (extractedRaw html_content)

/-- Left-to-right `re.sub` scan: each match of the replacement pattern
is replaced by the mapped hosted filename (falling back to the stripped
original filename), everything else is copied unchanged. -/
def replaceRefsFuel (filename_map : List (String × String)) : Nat → List Char → List Char
  | 0, s => s
  | _ + 1, [] => []
  | fuel + 1, c :: cs =>
    match matchTokenAt (c :: cs) with
    | some (g, rest) =>
      let original_filename := String.mk (pyStrip g)
      let hosted_filename := (filename_map.lookup original_filename).getD original_filename
      hosted_filename.data ++ replaceRefsFuel filename_map fuel rest
    | none => c :: replaceRefsFuel filename_map fuel cs

/-- Models `_replace_artifact_references` (tools.py lines 41-65). -/
def _replace_artifact_references (html_content : String) (filename_map : List (String × String)) : String :=
  String.mk (replaceRefsFuel filename_map html_content.data.length html_content.data)

/-! ### Data model: exceptions, artifact service, contexts, results -/

/-- The Python exceptions raised inside the hosting tool. -/
inductive PyErr where
  | fileNotFound (msg : String)
  | valueError (msg : String)
  | otherError (msg : String)
deriving DecidableEq, Repr

/-- Models Python `str(e)` on the exceptions above. -/
def PyErr.errMsg : PyErr → String
  | .fileNotFound m => m
  | .valueError m => m
  | .otherError m => m

/-- The inline byte payload of a loaded artifact
(`artifact.inline_data.data`). -/
structure InlineData where
  data : List Nat
deriving DecidableEq, Repr

/-- A loaded artifact; `inline_data` may be absent. -/
structure ArtifactBlob where
  inline_data : Option InlineData
deriving DecidableEq, Repr

/-- The external artifact service collaborator: `list_versions` and
`load_artifact`, each keyed here by filename (the app/user/session
identity is threaded through unchanged by the code and does not affect
the control flow modelled); an `Except.error` models the method
raising. -/
structure ArtifactService where
  list_versions : String → Except PyErr (List Int)
  load_artifact : String → Int → Except PyErr (Option ArtifactBlob)

/-- The invocation context extracted from the tool context
(tools.py lines 203-213); `session_id` models the result of
`get_original_session_id`. -/
structure InvocationContext where
  app_name : Option String
  user_id : Option String
  session_id : String
  artifact_service : Option ArtifactService

/-- The framework tool context, whose `_invocation_context` may be
absent. -/
structure ToolContext where
  _invocation_context : Option InvocationContext

/-- Python truthiness of an optional string. -/
def pyTruthyOpt : Option String → Bool
  | none => false
  | some s => s ≠ ""

/-- Observable effects of a hosting call, in order of occurrence. -/
inductive Event where
  | listVersions (filename : String)
  | loadArtifact (filename : String) (version : Int)
  | writeFile (filename : String) (content : List Nat)
deriving DecidableEq, Repr

/-- Values stored in the result dictionaries. -/
inductive PyVal where
  | s (v : String)
  | i (v : Int)
  | lst (v : List (List (String × String)))
deriving DecidableEq, Repr

/-- A Python result dictionary, as an ordered association list. -/
def PyDict := List (String × PyVal)
deriving DecidableEq, Repr

/-- The structured error payload `{"status": "error", "message": m}`. -/
def errDict (m : String) : PyDict :=
  [("status", PyVal.s "error"), ("message", PyVal.s m)]

/-- The success payload of `host_artifact` (tools.py lines 334-346):
status, message, original filename, resolved version, hosted filename,
URL, and the referenced-artifact list when nonempty (in which case the
message also mentions the count). -/
def successDict (filename_base : String) (version : Int) (hosted_filename url : String)
    (referenced_artifacts : List (List (String × String))) : PyDict :=
  [("status", PyVal.s "success"),
   ("message", PyVal.s (if referenced_artifacts.isEmpty then "Artifact hosted successfully"
     else "Artifact hosted successfully along with " ++
       toString referenced_artifacts.length ++ " referenced artifact(s)")),
   ("artifact_filename", PyVal.s filename_base),
   ("artifact_version", PyVal.i version),
   ("hosted_filename", PyVal.s hosted_filename),
   ("url", PyVal.s url)]
  ++ (if referenced_artifacts.isEmpty then []
      else [("referenced_artifacts", PyVal.lst referenced_artifacts)])

/-! ### The web server (web_server.py) -/

/-- The server configuration (web_server.py lines 17-38). -/
structure ArtifactWebServer where
  host_directory : String
  port : Nat
  host : String

/-- Models `ArtifactWebServer.get_url` (web_server.py lines 172-188):
a truthy base URL override is stripped of trailing slashes and
prefixed; otherwise the default `http://host:port/` URL is built.  No
encoding or escaping of the filename takes place. -/
def ArtifactWebServer.get_url (self : ArtifactWebServer) (filename : String)
    (base_url : Option String) : String :=
  match base_url with
  | some b =>
    if b = "" then "http://" ++ self.host ++ ":" ++ toString self.port ++ "/" ++ filename
    else rstripSlash b ++ "/" ++ filename
  | none => "http://" ++ self.host ++ ":" ++ toString self.port ++ "/" ++ filename

/-- The size display string of the index route (web_server.py lines
50-55): megabytes with two decimals when the size is at least one MiB,
else kibibytes with two decimals.  Division of a byte count below
`2^53` by a power of two is exact in CPython floats, and `"%.2f"`
formatting rounds the exact value to two decimals with ties to even,
which `roundHalfEvenDiv` reproduces. -/
def roundHalfEvenDiv (num den : Nat) : Nat :=
  let q := num / den
  let r := num % den
  if 2 * r < den then q
  else if den < 2 * r then q + 1
  else if q % 2 = 0 then q else q + 1

/-- Format `num / den` with two decimal places (round half to even). -/
def fmt2f (num den : Nat) : String :=
  let c := roundHalfEvenDiv (num * 100) den
  toString (c / 100) ++ "." ++ (if c % 100 < 10 then "0" ++ toString (c % 100) else toString (c % 100))

/-- Models the `size_display` expression of the index route. -/
def size_display (size_bytes : Nat) : String :=
  if 1048576 ≤ size_bytes then fmt2f size_bytes 1048576 ++ " MB"
  else fmt2f size_bytes 1024 ++ " KB"

/-- The state of the background listener thread: present or not, and
alive or not (`threading.Thread.is_alive`). -/
structure ServerThread where
  alive : Bool
deriving DecidableEq, Repr

/-- Observable actions of `start()`. -/
inductive StartEvent where
  | warnedAlreadyRunning
  | spawnedThread
deriving DecidableEq, Repr

/-- Models `ArtifactWebServer.start` (web_server.py lines 147-164):
when a live server thread exists, log a warning and return unchanged;
otherwise create and start a new (alive) daemon thread. -/
def serverStart (server_thread : Option ServerThread) : Option ServerThread × List StartEvent :=
  match server_thread with
  | some t =>
    if t.alive then (some t, [StartEvent.warnedAlreadyRunning])
    else (some ⟨true⟩, [StartEvent.spawnedThread])
  | none => (some ⟨true⟩, [StartEvent.spawnedThread])

/-- Number of threads spawned in a trace of start events. -/
def countSpawns (l : List StartEvent) : Nat :=
  l.countP (· = StartEvent.spawnedThread)

/-! ### The hosting operations (tools.py) -/

/-- Version resolution (tools.py lines 86-106 and, duplicated verbatim,
lines 215-235): an explicit truthy version suffix is parsed with
`int(...)`; otherwise `list_versions` is consulted, an empty sequence
raises `FileNotFoundError`, and a nonempty one yields its maximum. -/
def versionFromStr : Option String → Except PyErr (Option Int)
  | none => Except.ok none
  | some vs =>
    if vs = "" then Except.ok none
    else
      match pyInt? vs with
      | some n => Except.ok (some n)
      | none => Except.error (PyErr.valueError
          ("invalid literal for int() with base 10: " ++ pyQuote ++ vs ++ pyQuote))

/-- The version to load for `filename_base`, together with the service
calls made. -/
def resolveVersion (artifact_service : ArtifactService) (filename_base : String)
    (version_str : Option String) : Except PyErr Int × List Event :=
  match versionFromStr version_str with
  | Except.error e => (Except.error e, [])
  | Except.ok (some v) => (Except.ok v, [])
  | Except.ok none =>
    match artifact_service.list_versions filename_base with
    | Except.error e => (Except.error e, [Event.listVersions filename_base])
    | Except.ok versions =>
      if versions.isEmpty then
        (Except.error (PyErr.fileNotFound
          ("Artifact " ++ pyQuote ++ filename_base ++ pyQuote ++ " not found.")),
         [Event.listVersions filename_base])
      else (Except.ok (pyMax versions), [Event.listVersions filename_base])

/-- Loading the artifact content (tools.py lines 111-127 / 240-256):
a missing artifact or missing inline data raises `FileNotFoundError`,
otherwise the payload bytes are returned. -/
def loadStep (artifact_service : ArtifactService) (filename_base : String) (version : Int) :
    Except PyErr (List Nat) × List Event :=
  match artifact_service.load_artifact filename_base version with
  | Except.error e => (Except.error e, [Event.loadArtifact filename_base version])
  | Except.ok none =>
    (Except.error (PyErr.fileNotFound ("Content for " ++ pyQuote ++ filename_base ++ pyQuote ++
      " v" ++ toString version ++ " not found.")),
     [Event.loadArtifact filename_base version])
  | Except.ok (some artifact) =>
    match artifact.inline_data with
    | none =>
      (Except.error (PyErr.fileNotFound ("Content for " ++ pyQuote ++ filename_base ++ pyQuote ++
        " v" ++ toString version ++ " not found.")),
       [Event.loadArtifact filename_base version])
    | some d => (Except.ok d.data, [Event.loadArtifact filename_base version])

/-- The result of `_host_single_artifact`: either the fields of its
success dictionary or those of its error dictionary. -/
inductive SingleRes where
  | ok (artifact_filename : String) (artifact_version : Int) (hosted_filename : String) (url : String)
  | fail (artifact_filename : String) (error : String)
deriving DecidableEq, Repr

/-- Models `_host_single_artifact` (tools.py lines 68-160): parse the
optional version suffix, resolve the version, load the content,
determine the hosted filename, write the bytes and build the URL; any
exception is caught and turned into an error result carrying `str(e)`. -/
def _host_single_artifact (artifact_filename : String) (custom_filename : Option String)
    (artifact_service : ArtifactService) (web_server : ArtifactWebServer)
    (base_url : Option String) : SingleRes × List Event :=
  let p := pyRsplitColon artifact_filename
  match resolveVersion artifact_service p.1 p.2 with
  | (Except.error e, evs) => (SingleRes.fail artifact_filename e.errMsg, evs)
  | (Except.ok version_to_load, evs) =>
    match loadStep artifact_service p.1 version_to_load with
    | (Except.error e, evs2) => (SingleRes.fail artifact_filename e.errMsg, evs ++ evs2)
    | (Except.ok artifact_bytes, evs2) =>
      let hosted_filename := resolveHostedFilename custom_filename p.1
      (SingleRes.ok p.1 version_to_load hosted_filename
        (web_server.get_url hosted_filename base_url),
       evs ++ evs2 ++ [Event.writeFile hosted_filename artifact_bytes])

/-- The loop of tools.py lines 287-310: host each referenced artifact
with `_host_single_artifact`, collecting the filename map and the
referenced-artifact entries of the successes, skipping failures. -/
def hostRefsLoop (artifact_service : ArtifactService) (web_server : ArtifactWebServer)
    (base_url : Option String) :
    List String → List (String × String) × List (List (String × String)) × List Event
  | [] => ([], [], [])
  | r :: rs =>
    let one := _host_single_artifact r none artifact_service web_server base_url
    let restRes := hostRefsLoop artifact_service web_server base_url rs
    match one.1 with
    | SingleRes.ok _ _ hosted url =>
      ((r, hosted) :: restRes.1,
       [("filename", r), ("hosted_filename", hosted), ("url", url)] :: restRes.2.1,
       one.2 ++ restRes.2.2)
    | SingleRes.fail _ _ => (restRes.1, restRes.2.1, one.2 ++ restRes.2.2)

/-- The HTML reference processing of tools.py lines 275-321: decode as
UTF-8 (a decode failure is caught and skips processing), extract the
referenced filenames, host each, and re-encode the rewritten HTML only
when the filename map is nonempty.  Returns the bytes to write, the
referenced-artifact entries and the events. -/
def processHtmlRefs (artifact_service : ArtifactService) (web_server : ArtifactWebServer)
    (base_url : Option String) (artifact_bytes : List Nat) :
    List Nat × List (List (String × String)) × List Event :=
  match utf8Decode? artifact_bytes with
  | none => (artifact_bytes, [], [])
  | some chars =>
    let html_content := String.mk chars
    let referenced_filenames := _extract_artifact_references html_content
    if referenced_filenames.isEmpty then (artifact_bytes, [], [])
    else
      let r := hostRefsLoop artifact_service web_server base_url referenced_filenames
      if r.1.isEmpty then (artifact_bytes, r.2.1, r.2.2)
      else (utf8Encode (_replace_artifact_references html_content r.1).data, r.2.1, r.2.2)

/-- The body of the `try` block of `host_artifact` (tools.py lines
201-348), with raising modelled by `Except.error`. -/
def hostArtifactBody (artifact_filename : String) (custom_filename : Option String)
    (tc : ToolContext) (tool_config : Option (List (String × String)))
    (ws : ArtifactWebServer) : Except PyErr PyDict × List Event :=
  match tc._invocation_context with
  | none => (Except.error (PyErr.valueError "InvocationContext is not available."), [])
  | some ic =>
    match ic.artifact_service with
    | none => (Except.error (PyErr.valueError "Missing required context parts"), [])
    | some artifact_service =>
      if pyTruthyOpt ic.app_name && pyTruthyOpt ic.user_id && ic.session_id ≠ "" then
        let p := pyRsplitColon artifact_filename
        match resolveVersion artifact_service p.1 p.2 with
        | (Except.error e, evs) => (Except.error e, evs)
        | (Except.ok version_to_load, evs) =>
          match loadStep artifact_service p.1 version_to_load with
          | (Except.error e, evs2) => (Except.error e, evs ++ evs2)
          | (Except.ok artifact_bytes, evs2) =>
            let hosted_filename := resolveHostedFilename custom_filename p.1
            let base_url := (tool_config.getD []).lookup "base_url"
            let pr :=
              if isHtmlName hosted_filename then
                processHtmlRefs artifact_service ws base_url artifact_bytes
              else (artifact_bytes, [], [])
            (Except.ok (successDict p.1 version_to_load hosted_filename
               (ws.get_url hosted_filename base_url) pr.2.1),
             evs ++ evs2 ++ pr.2.2 ++ [Event.writeFile hosted_filename pr.1])
      else (Except.error (PyErr.valueError "Missing required context parts"), [])

/-- Models `host_artifact` (tools.py lines 163-355): the guards on the
tool context and the web server registry, then the `try` body with
`FileNotFoundError` converted to its own message and any other
exception converted to a generic message — never re-raised. -/
def host_artifact (artifact_filename : String) (custom_filename : Option String)
    (tool_context : Option ToolContext) (tool_config : Option (List (String × String)))
    (web_server : Option ArtifactWebServer) : PyDict × List Event :=
  match tool_context with
  | none => (errDict "ToolContext is required", [])
  | some tc =>
    match web_server with
    | none => (errDict "Web server is not running. Please check agent configuration.", [])
    | some ws =>
      match hostArtifactBody artifact_filename custom_filename tc tool_config ws with
      | (Except.ok result, evs) => (result, evs)
      | (Except.error (PyErr.fileNotFound m), evs) => (errDict m, evs)
      | (Except.error e, evs) => (errDict ("An unexpected error occurred: " ++ e.errMsg), evs)

/-- The last file write of an event trace, if any. -/
def lastWrite (l : List Event) : Option (String × List Nat) :=
  l.foldl (fun acc e => match e with
    | Event.writeFile f b => some (f, b)
    | _ => acc) none

/-- Keep-first deduplication, recursive formulation used for proofs. -/
def ddfRec : List String → List String
  | [] => []
  | x :: xs => x :: ddfRec (xs.filter (· ≠ x))
termination_by l => l.length
decreasing_by simp only [List.length_cons]; exact Nat.lt_succ_of_le (List.length_filter_le _ _)

/-- First index of an element in a list (length if absent). -/
def firstIdx (x : String) : List String → Nat
  | [] => 0
  | y :: ys => if y = x then 0 else firstIdx x ys + 1

/-- The left-to-right rewriting relation realised by the replacement
scan (tools.py lines 61-63): the output is the input with every
non-matching character copied unchanged and every matched reference
token — marker to closing marker, trailer included — replaced by the
mapped hosted filename of its stripped captured filename, falling back
to that stripped filename itself when it is absent from the map. -/
inductive Rewrites (m : List (String × String)) : List Char → List Char → Prop where
  | nil : Rewrites m [] []
  | plain {c : Char} {cs t : List Char} :
      matchTokenAt (c :: cs) = none → Rewrites m cs t → Rewrites m (c :: cs) (c :: t)
  | token {s g rest t : List Char} :
      matchTokenAt s = some (g, rest) → Rewrites m rest t →
      Rewrites m s
        (((m.lookup (String.mk (pyStrip g))).getD (String.mk (pyStrip g))).data ++ t)

/-- Does `pat` occur as a contiguous byte subsequence of `l`? -/
def containsSeq (pat l : List Nat) : Bool :=
  match l with
  | [] => pat.isEmpty
  | _ :: tl => pat.isPrefixOf l || containsSeq pat tl

/-- Does the UTF-8 encoding of `needle` occur in the byte list? -/
def bytesContain (needle : String) (hay : List Nat) : Bool :=
  containsSeq (utf8Encode needle.data) hay

/-! ### Concrete fixtures used by counterexamples and witnesses -/

/-- A valid invocation context over the given artifact service. -/
def demoCtx (svc : ArtifactService) : ToolContext :=
  ⟨some ⟨some "app", some "user", "sess", some svc⟩⟩

/-- The default web server configuration of the plugin. -/
def ws0 : ArtifactWebServer := ⟨"./hosted_files", 8080, "127.0.0.1"⟩

/-- HTML referencing a single artifact that the service reports with
zero versions. -/
def htmlAllFail : String :=
  "<img src=\"«artifact_content:missing.png >>> format:datauri»\">"

/-- Service hosting `page.html` whose only reference has no versions. -/
def svcAllFail : ArtifactService where
  list_versions := fun f => if f = "page.html" then Except.ok [1] else Except.ok []
  load_artifact := fun f v =>
    if f = "page.html" && v == 1 then
      Except.ok (some ⟨some ⟨utf8Encode htmlAllFail.data⟩⟩)
    else Except.ok none

/-- HTML referencing `photo.jpg` twice through identical tokens. -/
def dupHtml : String :=
  "<img src=\"«artifact_content:photo.jpg >>> format:datauri»\"> and " ++
  "<img src=\"«artifact_content:photo.jpg >>> format:datauri»\">"

/-- Service with a duplicate-referencing page and the referenced photo. -/
def svcDup : ArtifactService where
  list_versions := fun f =>
    if f = "page.html" then Except.ok [1]
    else if f = "photo.jpg" then Except.ok [2]
    else Except.ok []
  load_artifact := fun f v =>
    if f = "page.html" && v == 1 then Except.ok (some ⟨some ⟨utf8Encode dupHtml.data⟩⟩)
    else if f = "photo.jpg" && v == 2 then Except.ok (some ⟨some ⟨[137, 80, 78, 71]⟩⟩)
    else Except.ok none

/-- HTML with one hostable reference and one reference with zero
versions. -/
def mixedHtml : String :=
  "<img src=\"«artifact_content:ok.png >>> format:datauri»\">" ++
  "<img src=\"«artifact_content:missing.png >>> format:datauri»\">"

/-- Service for the mixed success/failure reference scenario. -/
def svcMix : ArtifactService where
  list_versions := fun f =>
    if f = "page.html" then Except.ok [1]
    else if f = "ok.png" then Except.ok [1]
    else Except.ok []
  load_artifact := fun f v =>
    if f = "page.html" && v == 1 then Except.ok (some ⟨some ⟨utf8Encode mixedHtml.data⟩⟩)
    else if f = "ok.png" && v == 1 then Except.ok (some ⟨some ⟨[1, 2, 3]⟩⟩)
    else Except.ok none

/-- A service with a single plain (non-HTML) artifact `data.csv`. -/
def svcPlain : ArtifactService where
  list_versions := fun f => if f = "data.csv" then Except.ok [1, 3, 2] else Except.ok []
  load_artifact := fun f v =>
    if f = "data.csv" && v == 3 then Except.ok (some ⟨some ⟨[99, 115, 118]⟩⟩)
    else Except.ok none

/-- A service whose `page.html` content is not valid UTF-8. -/
def svcBadUtf8 : ArtifactService where
  list_versions := fun f => if f = "page.html" then Except.ok [1] else Except.ok []
  load_artifact := fun f v =>
    if f = "page.html" && v == 1 then Except.ok (some ⟨some ⟨[255, 254, 0]⟩⟩)
    else Except.ok none

/-! ### Helper lemmas -/

theorem dedupKeepFirst_go (l acc : List String) :
    l.foldl (fun acc x => if x ∈ acc then acc else acc ++ [x]) acc =
      acc ++ ddfRec (l.filter fun y => decide (y ∉ acc)) := by
  induction l generalizing acc with
  | nil => simp [ddfRec]
  | cons x xs ih =>
    by_cases hx : x ∈ acc
    · simp only [List.foldl_cons, if_pos hx]
      rw [ih]
      congr 2
      simp [List.filter_cons, hx]
    · simp only [List.foldl_cons, if_neg hx]
      rw [ih]
      have hfil : (xs.filter fun y => decide (y ∉ acc ++ [x])) =
          ((xs.filter fun y => decide (y ∉ acc)).filter fun y => decide (y ≠ x)) := by
        rw [List.filter_filter]
        apply List.filter_congr
        intro a _
        by_cases h1 : a ∈ acc <;> by_cases h2 : a = x <;>
          simp [h1, h2, List.mem_append]
      have hcons : ((x :: xs).filter fun y => decide (y ∉ acc)) =
          x :: (xs.filter fun y => decide (y ∉ acc)) := by
        simp [List.filter_cons, hx]
      rw [hcons]
      rw [show ddfRec (x :: xs.filter fun y => decide (y ∉ acc)) =
          x :: ddfRec ((xs.filter fun y => decide (y ∉ acc)).filter fun y => decide (y ≠ x))
        from by simp [ddfRec]]
      rw [← hfil]
      simp

theorem dedupKeepFirst_eq_ddfRec (l : List String) : dedupKeepFirst l = ddfRec l := by
  unfold dedupKeepFirst
  rw [dedupKeepFirst_go]
  simp

theorem mem_ddfRec {a : String} {l : List String} : a ∈ ddfRec l ↔ a ∈ l := by
  induction l using ddfRec.induct with
  | case1 => simp [ddfRec]
  | case2 x xs ih =>
    rw [show ddfRec (x :: xs) = x :: ddfRec (xs.filter (· ≠ x)) from by simp [ddfRec]]
    by_cases hax : a = x
    · simp [hax]
    · simp only [List.mem_cons, hax, false_or]
      rw [ih]
      simp [List.mem_filter, hax]

theorem ddfRec_nodup (l : List String) : (ddfRec l).Nodup := by
  induction l using ddfRec.induct with
  | case1 => simp [ddfRec]
  | case2 x xs ih =>
    rw [show ddfRec (x :: xs) = x :: ddfRec (xs.filter (· ≠ x)) from by simp [ddfRec]]
    refine List.nodup_cons.mpr ⟨?_, ih⟩
    intro hx
    have := List.mem_filter.mp (mem_ddfRec.mp hx)
    simp at this

theorem firstIdx_cons_eq {x : String} (ys : List String) : firstIdx x (x :: ys) = 0 := by
  simp [firstIdx]

theorem firstIdx_cons_ne {x y : String} (h : ¬ y = x) (ys : List String) :
    firstIdx x (y :: ys) = firstIdx x ys + 1 := by
  simp [firstIdx, h]

theorem firstIdx_filter_lt {p : String → Bool} {xs : List String} {a b : String}
    (ha : a ∈ xs.filter p) (hb : b ∈ xs.filter p)
    (h : firstIdx a (xs.filter p) < firstIdx b (xs.filter p)) :
    firstIdx a xs < firstIdx b xs := by
  induction xs with
  | nil => simp at ha
  | cons y ys ih =>
    by_cases hpy : p y
    · rw [List.filter_cons_of_pos hpy] at ha hb h
      by_cases hay : y = a
      · subst hay
        have hby : ¬ y = b := by
          intro hby
          subst hby
          simp [firstIdx_cons_eq] at h
        rw [firstIdx_cons_eq, firstIdx_cons_ne hby]
        omega
      · by_cases hby : y = b
        · subst hby
          rw [firstIdx_cons_eq, firstIdx_cons_ne hay] at h
          omega
        · rw [firstIdx_cons_ne hay, firstIdx_cons_ne hby] at h
          rw [firstIdx_cons_ne hay, firstIdx_cons_ne hby]
          have ha2 : a ∈ ys.filter p := by
            rcases List.mem_cons.mp ha with h1 | h1
            · exact absurd h1.symm hay
            · exact h1
          have hb2 : b ∈ ys.filter p := by
            rcases List.mem_cons.mp hb with h1 | h1
            · exact absurd h1.symm hby
            · exact h1
          have := ih ha2 hb2 (by omega)
          omega
    · rw [List.filter_cons_of_neg hpy] at ha hb h
      have hay : ¬ y = a := by
        intro hay
        subst hay
        exact hpy (List.of_mem_filter ha)
      have hby : ¬ y = b := by
        intro hby
        subst hby
        exact hpy (List.of_mem_filter hb)
      rw [firstIdx_cons_ne hay, firstIdx_cons_ne hby]
      have := ih ha hb h
      omega

theorem ddfRec_pairwise (l : List String) :
    (ddfRec l).Pairwise (fun a b => firstIdx a l < firstIdx b l) := by
  induction l using ddfRec.induct with
  | case1 => simp [ddfRec]
  | case2 x xs ih =>
    rw [show ddfRec (x :: xs) = x :: ddfRec (xs.filter (· ≠ x)) from by simp [ddfRec]]
    refine List.pairwise_cons.mpr ⟨?_, ?_⟩
    · intro b hb
      have hbf : b ∈ xs.filter (· ≠ x) := mem_ddfRec.mp hb
      have hbx : ¬ x = b := by
        have := List.mem_filter.mp hbf
        simp at this
        exact fun h => this.2 h.symm
      rw [firstIdx_cons_eq, firstIdx_cons_ne hbx]
      omega
    · refine List.Pairwise.imp_of_mem ?_ ih
      intro a b ha hb hlt
      have haf : a ∈ xs.filter (· ≠ x) := mem_ddfRec.mp ha
      have hbf : b ∈ xs.filter (· ≠ x) := mem_ddfRec.mp hb
      have hax : ¬ x = a := by
        have := List.mem_filter.mp haf
        simp at this
        exact fun h => this.2 h.symm
      have hbx : ¬ x = b := by
        have := List.mem_filter.mp hbf
        simp at this
        exact fun h => this.2 h.symm
      rw [firstIdx_cons_ne hax, firstIdx_cons_ne hbx]
      have := firstIdx_filter_lt haf hbf hlt
      omega

theorem le_foldl_max (xs : List Int) (a : Int) : a ≤ xs.foldl max a := by
  induction xs generalizing a with
  | nil => simp
  | cons y ys ih => exact le_trans (le_max_left a y) (ih (max a y))

theorem mem_le_foldl_max {x : Int} {xs : List Int} (hx : x ∈ xs) (a : Int) :
    x ≤ xs.foldl max a := by
  induction xs generalizing a with
  | nil => simp at hx
  | cons y ys ih =>
    rcases List.mem_cons.mp hx with rfl | h
    · exact le_trans (le_max_right a x) (le_foldl_max ys (max a x))
    · exact ih h (max a y)

theorem foldl_max_mem (xs : List Int) (a : Int) : xs.foldl max a = a ∨ xs.foldl max a ∈ xs := by
  induction xs generalizing a with
  | nil => left; rfl
  | cons y ys ih =>
    rcases ih (max a y) with h | h
    · rcases max_choice a y with hm | hm
      · left; rw [List.foldl_cons, h, hm]
      · right; rw [List.foldl_cons, h, hm]; exact List.mem_cons_self y ys
    · right
      rw [List.foldl_cons]
      exact List.mem_cons_of_mem y h

theorem pyMax_mem {l : List Int} (h : l ≠ []) : pyMax l ∈ l := by
  match l with
  | x :: xs =>
    rcases foldl_max_mem xs x with h1 | h1
    · simp only [pyMax, h1]
      exact List.mem_cons_self x xs
    · simp only [pyMax]
      exact List.mem_cons_of_mem x h1

theorem le_pyMax {x : Int} {l : List Int} (hx : x ∈ l) : x ≤ pyMax l := by
  match l with
  | y :: ys =>
    rcases List.mem_cons.mp hx with rfl | h
    · simpa [pyMax] using le_foldl_max ys x
    · simpa [pyMax] using mem_le_foldl_max h y

theorem hostRefsLoop_all_fail {svc : ArtifactService} {ws : ArtifactWebServer}
    {burl : Option String} {refs : List String}
    (h : ∀ r ∈ refs, ∃ n m, (_host_single_artifact r none svc ws burl).1 = SingleRes.fail n m) :
    (hostRefsLoop svc ws burl refs).1 = [] ∧ (hostRefsLoop svc ws burl refs).2.1 = [] := by
  induction refs with
  | nil => simp [hostRefsLoop]
  | cons r rs ih =>
    obtain ⟨n, m, hr⟩ := h r (List.mem_cons_self r rs)
    have ih2 := ih (fun x hx => h x (List.mem_cons_of_mem r hx))
    simp only [hostRefsLoop]
    rw [hr]
    simp [ih2.1, ih2.2]

theorem lastWrite_append_write (l : List Event) (f : String) (b : List Nat) :
    lastWrite (l ++ [Event.writeFile f b]) = some (f, b) := by
  simp [lastWrite, List.foldl_append]

theorem successDict_status (fb : String) (v : Int) (hf url : String)
    (ra : List (List (String × String))) :
    (successDict fb v hf url ra).lookup "status" = some (PyVal.s "success") := by
  simp [successDict, List.lookup]

theorem successDict_message (fb : String) (v : Int) (hf url : String)
    (ra : List (List (String × String))) :
    (successDict fb v hf url ra).lookup "message" =
      some (PyVal.s (if ra.isEmpty then "Artifact hosted successfully"
        else "Artifact hosted successfully along with " ++
          toString ra.length ++ " referenced artifact(s)")) := by
  simp [successDict, List.lookup]

theorem successDict_hosted (fb : String) (v : Int) (hf url : String)
    (ra : List (List (String × String))) :
    (successDict fb v hf url ra).lookup "hosted_filename" = some (PyVal.s hf) := by
  simp [successDict, List.lookup]

theorem hostArtifactBody_ok_shape {af : String} {cf : Option String} {tc : ToolContext}
    {cfg : Option (List (String × String))} {ws : ArtifactWebServer} {d : PyDict} {evs : List Event}
    (h : hostArtifactBody af cf tc cfg ws = (Except.ok d, evs)) :
    ∃ fb v hf url ra, d = successDict fb v hf url ra := by
  simp only [hostArtifactBody] at h
  repeat' split at h
  all_goals injection h with h1 h2
  all_goals try (injection h1 with h1; exact ⟨_, _, _, _, _, h1.symm⟩)
  all_goals injection h1

theorem dropWhile_head_not {p : Char → Bool} (l : List Char) :
    ∀ c, ((l.dropWhile p).head? = some c) → p c = false := by
  induction l with
  | nil => simp
  | cons x xs ih =>
    intro c h
    by_cases hx : p x
    · rw [List.dropWhile_cons_of_pos hx] at h
      exact ih c h
    · rw [List.dropWhile_cons_of_neg hx] at h
      simp at h
      subst h
      simpa using hx

theorem length_dropWhile_le (p : Char → Bool) (l : List Char) :
    (l.dropWhile p).length ≤ l.length := by
  induction l with
  | nil => simp
  | cons x xs ih =>
    by_cases hx : p x
    · rw [List.dropWhile_cons_of_pos hx]
      simp only [List.length_cons]
      omega
    · rw [List.dropWhile_cons_of_neg hx]

theorem matchLiteral_length {p s t : List Char} (h : matchLiteral p s = some t) :
    t.length + p.length = s.length := by
  induction p generalizing s with
  | nil =>
    simp only [matchLiteral, Option.some.injEq] at h
    subst h
    simp
  | cons x ps ih =>
    match s with
    | [] => simp [matchLiteral] at h
    | c :: cs =>
      simp only [matchLiteral] at h
      split at h
      · have := ih h
        simp only [List.length_cons]
        omega
      · cases h

theorem matchWsArrows_length {s r : List Char} (h : matchWsArrows s = some r) :
    r.length < s.length := by
  unfold matchWsArrows at h
  have h1 := matchLiteral_length h
  have h2 : (s.dropWhile isPySpace).length ≤ s.length := length_dropWhile_le isPySpace s
  have h3 : (">>>".data).length = 3 := by decide
  omega

theorem matchCloseTail_length {s r : List Char} (h : matchCloseTail s = some r) :
    r.length < s.length := by
  unfold matchCloseTail at h
  rcases hw : matchWsArrows s with _ | r1
  · simp [hw] at h
  · simp only [hw] at h
    split at h
    · injection h with h2
      subst h2
      rename_i rest heq
      have h4 : (r1.dropWhile (· ≠ '»')).length ≤ r1.length := length_dropWhile_le _ r1
      rw [heq] at h4
      simp only [List.length_cons] at h4
      have h5 := matchWsArrows_length hw
      omega
    · cases h

theorem tryGroup_length {tm : List Char → Option (List Char)}
    (htm : ∀ s r, tm s = some r → r.length < s.length) :
    ∀ (revG rest g after : List Char), tryGroup tm revG rest = some (g, after) →
      after.length < revG.length + rest.length := by
  intro revG
  induction revG with
  | nil =>
    intro rest g after h
    simp [tryGroup] at h
  | cons c revG ih =>
    intro rest g after h
    simp only [tryGroup] at h
    split at h
    · injection h with h
      injection h with h1 h2
      subst h2
      rename_i after1 heq
      have := htm rest after1 heq
      simp only [List.length_cons]
      omega
    · have := ih (c :: rest) g after h
      simp only [List.length_cons] at this ⊢
      omega

theorem matchTokenAt_length {s g rest : List Char} (h : matchTokenAt s = some (g, rest)) :
    rest.length < s.length := by
  unfold matchTokenAt at h
  rcases hl : matchLiteral refOpen s with _ | t
  · simp [hl] at h
  · simp only [hl] at h
    have hlen := matchLiteral_length hl
    have hg := tryGroup_length (fun s r hr => matchCloseTail_length hr) _ _ _ _ h
    have hsum : (t.takeWhile isRefGroupChar).length + (t.dropWhile isRefGroupChar).length =
        t.length := by
      have h6 := congrArg List.length (List.takeWhile_append_dropWhile (p := isRefGroupChar) (l := t))
      rw [List.length_append] at h6
      exact h6
    have hro : refOpen.length = 18 := by decide
    simp only [List.length_reverse] at hg
    omega

theorem replaceRefsFuel_rewrites (m : List (String × String)) :
    ∀ (fuel : Nat) (s : List Char), s.length ≤ fuel →
      Rewrites m s (replaceRefsFuel m fuel s) := by
  intro fuel
  induction fuel with
  | zero =>
    intro s hs
    match s with
    | [] => exact Rewrites.nil
    | c :: cs => simp at hs
  | succ fuel ih =>
    intro s hs
    match s with
    | [] => exact Rewrites.nil
    | c :: cs =>
      simp only [replaceRefsFuel]
      rcases hm : matchTokenAt (c :: cs) with _ | ⟨g, rest⟩
      · refine Rewrites.plain hm (ih cs ?_)
        simp only [List.length_cons] at hs
        omega
      · refine Rewrites.token hm (ih rest ?_)
        have h7 := matchTokenAt_length hm
        simp only [List.length_cons] at h7 hs
        omega

/-- `_replace_artifact_references` realises the rewriting relation: in
its output every reference token of the input has been replaced by the
mapped hosted filename or, when absent from the map, by the bare
stripped original filename — no token is copied through. -/
theorem replace_artifact_references_rewrites (html : String) (m : List (String × String)) :
    Rewrites m html.data (_replace_artifact_references html m).data := by
  unfold _replace_artifact_references
  exact replaceRefsFuel_rewrites m html.data.length html.data (le_refl _)

theorem hostRefsLoop_map_mem {svc : ArtifactService} {ws : ArtifactWebServer}
    {burl : Option String} {refs : List String} {pr : String × String}
    (h : pr ∈ (hostRefsLoop svc ws burl refs).1) :
    ∃ fb v url, (_host_single_artifact pr.1 none svc ws burl).1 = SingleRes.ok fb v pr.2 url := by
  induction refs with
  | nil => simp [hostRefsLoop] at h
  | cons r rs ih =>
    simp only [hostRefsLoop] at h
    rcases h1 : (_host_single_artifact r none svc ws burl).1 with ⟨fb, v, hf, url⟩ | ⟨n, m⟩
    · rw [h1] at h
      simp only [List.mem_cons] at h
      rcases h with h | h
      · subst h
        exact ⟨fb, v, url, h1⟩
      · exact ih h
    · rw [h1] at h
      exact ih h

theorem hostRefsLoop_fail_lookup {svc : ArtifactService} {ws : ArtifactWebServer}
    {burl : Option String} {refs : List String} {r n m : String}
    (hf : (_host_single_artifact r none svc ws burl).1 = SingleRes.fail n m) :
    ((hostRefsLoop svc ws burl refs).1).lookup r = none := by
  induction refs with
  | nil => simp [hostRefsLoop]
  | cons x xs ih =>
    simp only [hostRefsLoop]
    rcases h1 : (_host_single_artifact x none svc ws burl).1 with ⟨fb, v, hfn, url⟩ | ⟨n2, m2⟩
    · by_cases hrx : r = x
      · subst hrx
        rw [hf] at h1
        cases h1
      · simp only [h1, List.lookup]
        have hbe : (r == x) = false := by simpa using hrx
        rw [hbe]
        exact ih
    · simp only [h1]
      exact ih

theorem hostRefsLoop_ne_nil {svc : ArtifactService} {ws : ArtifactWebServer}
    {burl : Option String} {refs : List String}
    (h : ∃ r ∈ refs, ∃ fb v hf url,
      (_host_single_artifact r none svc ws burl).1 = SingleRes.ok fb v hf url) :
    (hostRefsLoop svc ws burl refs).1 ≠ [] := by
  induction refs with
  | nil =>
    obtain ⟨r, hr, _⟩ := h
    simp at hr
  | cons x xs ih =>
    obtain ⟨r, hr, fb, v, hf, url, hok⟩ := h
    simp only [hostRefsLoop]
    rcases h1 : (_host_single_artifact x none svc ws burl).1 with ⟨fb2, v2, hf2, url2⟩ | ⟨n2, m2⟩
    · simp
    · rcases List.mem_cons.mp hr with hrx | hrxs
      · subst hrx
        rw [hok] at h1
        cases h1
      · simpa using ih ⟨r, hrxs, fb, v, hf, url, hok⟩

/-! ### Claims -/

/-- Claim C2: `get_url` with no base-URL override returns exactly
`http://{host}:{port}/{filename}`; with a truthy override (with or
without trailing slashes) it returns exactly the override stripped of
all trailing slashes, a slash, and the unencoded filename.  The third
conjunct pins down the stripping: the override is the stripped value
followed by some run of slashes, and the stripped value never ends in
a slash. -/
theorem c2_get_url_formula :
    (∀ (ws : ArtifactWebServer) (f : String),
      ws.get_url f none = "http://" ++ ws.host ++ ":" ++ toString ws.port ++ "/" ++ f) ∧
    (∀ (ws : ArtifactWebServer) (f b : String), b ≠ "" →
      ws.get_url f (some b) = rstripSlash b ++ "/" ++ f) ∧
    (∀ b : String, ∃ k : Nat,
      b.data = (rstripSlash b).data ++ List.replicate k '/' ∧
      ∀ c, ((rstripSlash b).data.getLast? = some c) → c ≠ '/') := by
  refine ⟨fun ws f => rfl, fun ws f b hb => ?_, fun b => ?_⟩
  · simp [ArtifactWebServer.get_url, hb]
  · refine ⟨(b.data.reverse.takeWhile (· = '/')).length, ?_, ?_⟩
    · have hsplit : b.data.reverse.reverse =
          (b.data.reverse.dropWhile (· = '/')).reverse ++ (b.data.reverse.takeWhile (· = '/')).reverse := by
        conv_lhs => rw [← List.takeWhile_append_dropWhile (p := (· = '/')) (l := b.data.reverse)]
        rw [List.reverse_append]
      have hrep : (b.data.reverse.takeWhile (· = '/')).reverse =
          List.replicate (b.data.reverse.takeWhile (· = '/')).length '/' := by
        have hmem : ∀ c ∈ (b.data.reverse.takeWhile (· = '/')).reverse, c = '/' := by
          intro c hc
          rw [List.mem_reverse] at hc
          have := List.mem_takeWhile_imp hc
          simpa using this
        have := List.eq_replicate_of_mem hmem
        simpa using this
      conv_lhs => rw [← List.reverse_reverse b.data]
      rw [hsplit, hrep]
      rfl
    · intro c hc
      rw [rstripSlash] at hc
      simp only [String.data] at hc
      rw [List.getLast?_reverse] at hc
      have := dropWhile_head_not (p := (· = '/')) b.data.reverse c hc
      simpa using this

/-- Witness for C2 at a concrete override with a trailing slash. -/
theorem c2_get_url_formula_witness :
    ws0.get_url "photo.jpg" (some "https://proxy.example/") = "https://proxy.example/photo.jpg" :=
  (c2_get_url_formula.2.1 ws0 "photo.jpg" "https://proxy.example/" (by decide)).trans (by decide)

/-- Claim C10: an empty-string base-URL override is treated as absent:
`get_url` returns the default `http://{host}:{port}/{filename}` URL. -/
theorem c10_empty_base_url_absent :
    ∀ (ws : ArtifactWebServer) (f : String),
      ws.get_url f (some "") = ws.get_url f none ∧
      ws.get_url f (some "") = "http://" ++ ws.host ++ ":" ++ toString ws.port ++ "/" ++ f := by
  intro ws f
  exact ⟨rfl, rfl⟩

/-- Claim C7: the hosted filename is the custom filename when one is
given (Python-truthy), else the original base filename; a custom name
without a dot inherits the source filename's suffix when the source
name has a dot.  The last conjunct grounds this in `host_artifact`:
the success payload's `hosted_filename` field is exactly this value. -/
theorem c7_hosted_filename_rule :
    (∀ base : String, resolveHostedFilename none base = base) ∧
    (∀ (c base : String), c ≠ "" →
      resolveHostedFilename (some c) base =
        if ¬ c.data.contains '.' ∧ base.data.contains '.' then c ++ pathSuffix base else c) ∧
    (∀ (af : String) (custom : Option String) (svc : ArtifactService) (ic : InvocationContext)
      (cfg : Option (List (String × String))) (ws : ArtifactWebServer) (v : Int)
      (bytes : List Nat) (evs evs2 : List Event),
      ic.artifact_service = some svc →
      pyTruthyOpt ic.app_name = true →
      pyTruthyOpt ic.user_id = true →
      ic.session_id ≠ "" →
      resolveVersion svc (pyRsplitColon af).1 (pyRsplitColon af).2 = (Except.ok v, evs) →
      loadStep svc (pyRsplitColon af).1 v = (Except.ok bytes, evs2) →
      (host_artifact af custom (some ⟨some ic⟩) cfg (some ws)).1.lookup "hosted_filename" =
        some (PyVal.s (resolveHostedFilename custom (pyRsplitColon af).1))) := by
  refine ⟨fun base => rfl, fun c base hc => ?_, ?_⟩
  · simp [resolveHostedFilename, hc]
  · intro af custom svc ic cfg ws v bytes evs evs2 hsvc happ huser hsess hver hload
    simp only [host_artifact, hostArtifactBody, hsvc, happ, huser, hver, hload]
    rw [if_pos (by simp [hsess])]
    exact successDict_hosted _ _ _ _ _

/-- Witness for C7: custom name `report` for source `data.csv` is
hosted as `report.csv`. -/
theorem c7_hosted_filename_rule_witness :
    (host_artifact "data.csv" (some "report") (some (demoCtx svcPlain)) none (some ws0)).1.lookup
      "hosted_filename" = some (PyVal.s "report.csv") :=
  (c7_hosted_filename_rule.2.2 "data.csv" (some "report") svcPlain
    ⟨some "app", some "user", "sess", some svcPlain⟩ none ws0 3 [99, 115, 118]
    [Event.listVersions "data.csv"] [Event.loadArtifact "data.csv" 3]
    rfl rfl rfl (by decide) rfl rfl).trans (by decide)

/-- Claim C8: the size display maps a byte count to megabytes
(`bytes / 1048576`, two decimals) when at least one MiB, else to
kibibytes (`bytes / 1024`, two decimals); `1048576` bytes display as
`1.00 MB` and `2048` bytes as `2.00 KB`. -/
theorem c8_size_display_rule :
    (∀ b : Nat, 1048576 ≤ b → size_display b = fmt2f b 1048576 ++ " MB") ∧
    (∀ b : Nat, b < 1048576 → size_display b = fmt2f b 1024 ++ " KB") ∧
    size_display 1048576 = "1.00 MB" ∧
    size_display 2048 = "2.00 KB" := by
  refine ⟨fun b hb => ?_, fun b hb => ?_, by decide, by decide⟩
  · simp [size_display, hb]
  · rw [size_display, if_neg (by omega)]

/-- Witness for C8 at three MiB exactly. -/
theorem c8_size_display_rule_witness : size_display 3145728 = "3.00 MB" :=
  (c8_size_display_rule.1 3145728 (by decide)).trans (by decide)

/-- Claim C9: `start()` is idempotent with respect to running
listeners: after any first `start()` the thread slot holds one live
thread, and a second call warns, spawns nothing and leaves the state
unchanged. -/
theorem c9_start_idempotent :
    ∀ (st st1 : Option ServerThread) (e1 : List StartEvent),
      serverStart st = (st1, e1) →
      serverStart st1 = (st1, [StartEvent.warnedAlreadyRunning]) ∧
      st1 = some ⟨true⟩ ∧
      countSpawns (e1 ++ [StartEvent.warnedAlreadyRunning]) = countSpawns e1 ∧
      countSpawns e1 ≤ 1 := by
  intro st st1 e1 h
  have hstate : st1 = some ⟨true⟩ ∧ countSpawns e1 ≤ 1 := by
    match st with
    | none =>
      injection h with h1 h2
      subst h1; subst h2
      exact ⟨rfl, by decide⟩
    | some t =>
      match ht : t.alive with
      | true =>
        simp only [serverStart, ht, if_true] at h
        injection h with h1 h2
        subst h1; subst h2
        refine ⟨?_, by decide⟩
        cases t
        simp_all
      | false =>
        simp only [serverStart, ht, Bool.false_eq_true, if_false] at h
        injection h with h1 h2
        subst h1; subst h2
        exact ⟨rfl, by decide⟩
  refine ⟨?_, hstate.1, ?_, hstate.2⟩
  · rw [hstate.1]
    rfl
  · simp [countSpawns]

/-- Witness for C9 starting from a fresh server. -/
theorem c9_start_idempotent_witness :
    serverStart (some ⟨true⟩) = (some ⟨true⟩, [StartEvent.warnedAlreadyRunning]) :=
  (c9_start_idempotent none (some ⟨true⟩) [StartEvent.spawnedThread] rfl).1

theorem loadStep_events (svc : ArtifactService) (f : String) (v : Int) :
    (loadStep svc f v).2 = [Event.loadArtifact f v] := by
  unfold loadStep
  repeat' split
  all_goals rfl

/-- Claim C5: for an artifact identifier without an explicit version
suffix, the version loaded is the maximum integer of the versions
reported by the external service's `list_versions` (and `pyMax` really
is that maximum), while an empty version sequence fails the hosting
operation as a not-found error for that artifact. -/
theorem c5_latest_is_max :
    (∀ (svc : ArtifactService) (base : String),
      svc.list_versions base = Except.ok [] →
      resolveVersion svc base none =
        (Except.error (PyErr.fileNotFound
          ("Artifact " ++ pyQuote ++ base ++ pyQuote ++ " not found.")),
         [Event.listVersions base])) ∧
    (∀ (svc : ArtifactService) (base : String) (vs : List Int),
      svc.list_versions base = Except.ok vs → vs ≠ [] →
      resolveVersion svc base none = (Except.ok (pyMax vs), [Event.listVersions base]) ∧
      pyMax vs ∈ vs ∧ ∀ x ∈ vs, x ≤ pyMax vs) ∧
    (∀ (af : String) (custom : Option String) (svc : ArtifactService) (ic : InvocationContext)
      (cfg : Option (List (String × String))) (ws : ArtifactWebServer),
      ic.artifact_service = some svc →
      pyTruthyOpt ic.app_name = true →
      pyTruthyOpt ic.user_id = true →
      ic.session_id ≠ "" →
      (pyRsplitColon af).2 = none →
      svc.list_versions (pyRsplitColon af).1 = Except.ok [] →
      host_artifact af custom (some ⟨some ic⟩) cfg (some ws) =
        (errDict ("Artifact " ++ pyQuote ++ (pyRsplitColon af).1 ++ pyQuote ++ " not found."),
         [Event.listVersions (pyRsplitColon af).1])) ∧
    (∀ (af : String) (custom : Option String) (svc : ArtifactService) (ic : InvocationContext)
      (cfg : Option (List (String × String))) (ws : ArtifactWebServer) (vs : List Int),
      ic.artifact_service = some svc →
      pyTruthyOpt ic.app_name = true →
      pyTruthyOpt ic.user_id = true →
      ic.session_id ≠ "" →
      (pyRsplitColon af).2 = none →
      svc.list_versions (pyRsplitColon af).1 = Except.ok vs → vs ≠ [] →
      (host_artifact af custom (some ⟨some ic⟩) cfg (some ws)).2.take 2 =
        [Event.listVersions (pyRsplitColon af).1,
         Event.loadArtifact (pyRsplitColon af).1 (pyMax vs)]) := by
  refine ⟨?_, ?_, ?_, ?_⟩
  · intro svc base h
    simp [resolveVersion, versionFromStr, h]
  · intro svc base vs h hne
    refine ⟨?_, pyMax_mem hne, fun x hx => le_pyMax hx⟩
    simp only [resolveVersion, versionFromStr, h]
    rw [if_neg (by simp [hne])]
  · intro af custom svc ic cfg ws hsvc happ huser hsess hsuf hlist
    simp only [host_artifact, hostArtifactBody, hsvc, happ, huser, hsuf, resolveVersion,
      versionFromStr, hlist]
    rw [if_pos (by simp [hsess])]
    simp
  · intro af custom svc ic cfg ws vs hsvc happ huser hsess hsuf hlist hne
    rcases hload : loadStep svc (pyRsplitColon af).1 (pyMax vs) with ⟨res, evs2⟩
    have hevs2 : evs2 = [Event.loadArtifact (pyRsplitColon af).1 (pyMax vs)] := by
      have h2 := loadStep_events svc (pyRsplitColon af).1 (pyMax vs)
      rw [hload] at h2
      exact h2
    simp only [host_artifact, hostArtifactBody, hsvc, happ, huser, hsuf, resolveVersion,
      versionFromStr, hlist]
    rw [if_pos (by simp [hsess])]
    rw [if_neg (by simp [hne])]
    dsimp only
    rw [hload]
    cases res with
    | error e => cases e <;> simp [hevs2]
    | ok bytes => simp [hevs2]

/-- Witness for C5: an artifact with zero versions fails not-found. -/
theorem c5_latest_is_max_witness :
    host_artifact "nope.txt" none (some (demoCtx svcPlain)) none (some ws0) =
      (errDict ("Artifact " ++ pyQuote ++ "nope.txt" ++ pyQuote ++ " not found."),
       [Event.listVersions "nope.txt"]) :=
  c5_latest_is_max.2.2.1 "nope.txt" none svcPlain
    ⟨some "app", some "user", "sess", some svcPlain⟩ none ws0 rfl rfl rfl (by decide) rfl rfl

/-- Claim C4: when the hosted name is an HTML name but the artifact
bytes are not valid UTF-8, reference rewriting is skipped entirely,
the original bytes are written unchanged, no error is raised and the
result is the plain success payload. -/
theorem c4_invalid_utf8_passthrough :
    ∀ (af : String) (custom : Option String) (svc : ArtifactService) (ic : InvocationContext)
      (cfg : Option (List (String × String))) (ws : ArtifactWebServer) (v : Int)
      (bytes : List Nat) (evs evs2 : List Event),
      ic.artifact_service = some svc →
      pyTruthyOpt ic.app_name = true →
      pyTruthyOpt ic.user_id = true →
      ic.session_id ≠ "" →
      resolveVersion svc (pyRsplitColon af).1 (pyRsplitColon af).2 = (Except.ok v, evs) →
      loadStep svc (pyRsplitColon af).1 v = (Except.ok bytes, evs2) →
      isHtmlName (resolveHostedFilename custom (pyRsplitColon af).1) = true →
      utf8Decode? bytes = none →
      host_artifact af custom (some ⟨some ic⟩) cfg (some ws) =
        (successDict (pyRsplitColon af).1 v (resolveHostedFilename custom (pyRsplitColon af).1)
          (ws.get_url (resolveHostedFilename custom (pyRsplitColon af).1)
            ((cfg.getD []).lookup "base_url")) [],
         evs ++ evs2 ++
           [Event.writeFile (resolveHostedFilename custom (pyRsplitColon af).1) bytes]) := by
  intro af custom svc ic cfg ws v bytes evs evs2 hsvc happ huser hsess hver hload hhtml hdec
  simp only [host_artifact, hostArtifactBody, hsvc, happ, huser, hver, hload]
  rw [if_pos (by simp [hsess]), if_pos hhtml]
  simp [processHtmlRefs, hdec]

/-- Witness for C4: hosting `page.html` whose bytes `FF FE 00` are not
UTF-8 writes them unchanged and succeeds. -/
theorem c4_invalid_utf8_passthrough_witness :
    host_artifact "page.html" none (some (demoCtx svcBadUtf8)) none (some ws0) =
      (successDict "page.html" 1 "page.html" "http://127.0.0.1:8080/page.html" [],
       [Event.listVersions "page.html", Event.loadArtifact "page.html" 1,
        Event.writeFile "page.html" [255, 254, 0]]) :=
  (c4_invalid_utf8_passthrough "page.html" none svcBadUtf8
    ⟨some "app", some "user", "sess", some svcBadUtf8⟩ none ws0 1 [255, 254, 0]
    [Event.listVersions "page.html"] [Event.loadArtifact "page.html" 1]
    rfl rfl rfl (by decide) rfl rfl (by decide) (by decide)).trans (by decide)

/-- Claim C6: `host_artifact` never raises past its boundary: a
missing tool context is rejected before any fetch with the structured
`ToolContext is required` error; a raising body is converted to a
structured error (not-found errors keep their own message, any other
exception is wrapped in the generic message containing the exception
text); and every outcome is a dictionary with a `success` or `error`
status and a message string. -/
theorem c6_error_boundary :
    (∀ (af : String) (cf : Option String) (cfg : Option (List (String × String)))
      (wso : Option ArtifactWebServer),
      host_artifact af cf none cfg wso = (errDict "ToolContext is required", [])) ∧
    (∀ (af : String) (cf : Option String) (tc : ToolContext)
      (cfg : Option (List (String × String))) (ws : ArtifactWebServer) (e : PyErr)
      (evs : List Event),
      hostArtifactBody af cf tc cfg ws = (Except.error e, evs) →
      host_artifact af cf (some tc) cfg (some ws) =
        ((match e with
          | PyErr.fileNotFound m => errDict m
          | _ => errDict ("An unexpected error occurred: " ++ e.errMsg)), evs)) ∧
    (∀ (af : String) (cf : Option String) (tco : Option ToolContext)
      (cfg : Option (List (String × String))) (wso : Option ArtifactWebServer)
      (d : PyDict) (evs : List Event),
      host_artifact af cf tco cfg wso = (d, evs) →
      (d.lookup "status" = some (PyVal.s "success") ∨
       d.lookup "status" = some (PyVal.s "error")) ∧
      ∃ m, d.lookup "message" = some (PyVal.s m)) := by
  refine ⟨fun af cf cfg wso => rfl, ?_, ?_⟩
  · intro af cf tc cfg ws e evs h
    cases e <;> simp [host_artifact, h, PyErr.errMsg]
  · intro af cf tco cfg wso d evs h
    match tco with
    | none =>
      simp only [host_artifact] at h
      injection h with h1 h2
      subst h1
      exact ⟨Or.inr rfl, ⟨"ToolContext is required", rfl⟩⟩
    | some tc =>
      match wso with
      | none =>
        simp only [host_artifact] at h
        injection h with h1 h2
        subst h1
        exact ⟨Or.inr rfl, ⟨"Web server is not running. Please check agent configuration.", rfl⟩⟩
      | some ws =>
        rcases hb : hostArtifactBody af cf tc cfg ws with ⟨r, evb⟩
        match r with
        | Except.ok dd =>
          simp only [host_artifact, hb] at h
          injection h with h1 h2
          subst h1
          obtain ⟨fb, v, hf, url, ra, hdd⟩ := hostArtifactBody_ok_shape hb
          subst hdd
          exact ⟨Or.inl (successDict_status fb v hf url ra),
            ⟨_, successDict_message fb v hf url ra⟩⟩
        | Except.error e =>
          cases e
          all_goals simp only [host_artifact, hb] at h
          all_goals injection h with h1 h2
          all_goals subst h1
          all_goals exact ⟨Or.inr rfl, ⟨_, rfl⟩⟩

/-- Witness for C6: a call with no tool context yields the structured
error payload with a status and a message. -/
theorem c6_error_boundary_witness :
    ((errDict "ToolContext is required").lookup "status" = some (PyVal.s "success") ∨
     (errDict "ToolContext is required").lookup "status" = some (PyVal.s "error")) ∧
    ∃ m, (errDict "ToolContext is required").lookup "message" = some (PyVal.s m) :=
  c6_error_boundary.2.2 "report.html" none none none none _ _ rfl

set_option maxRecDepth 40000 in
/-- Claim C3: reference extraction returns the trimmed referenced
filenames in first-occurrence order with exact-filename duplicates
removed: the result has no duplicates, contains exactly the stripped
raw matches, and is ordered by first occurrence among them; names are
trimmed of surrounding whitespace; and in the duplicate scenario the
referenced photo is written exactly once while both occurrences in the
rewritten page are replaced with its filename. -/
theorem c3_extract_order_dedup :
    (∀ html : String,
      (_extract_artifact_references html).Nodup ∧
      (∀ f, f ∈ _extract_artifact_references html ↔ f ∈ extractedRaw html) ∧
      (_extract_artifact_references html).Pairwise
        (fun a b => firstIdx a (extractedRaw html) < firstIdx b (extractedRaw html))) ∧
    _extract_artifact_references "«artifact_content:  sp.png  >>> fmt» x" = ["sp.png"] ∧
    _extract_artifact_references dupHtml = ["photo.jpg"] ∧
    (host_artifact "page.html" none (some (demoCtx svcDup)) none (some ws0)).2.countP
      (fun e => e = Event.writeFile "photo.jpg" [137, 80, 78, 71]) = 1 ∧
    lastWrite (host_artifact "page.html" none (some (demoCtx svcDup)) none (some ws0)).2 =
      some ("page.html",
        utf8Encode "<img src=\"photo.jpg\"> and <img src=\"photo.jpg\">".data) := by
  refine ⟨?_, by decide, by decide, by decide, by decide⟩
  intro html
  have he : _extract_artifact_references html = ddfRec (extractedRaw html) :=
    dedupKeepFirst_eq_ddfRec (extractedRaw html)
  rw [he]
  exact ⟨ddfRec_nodup _, fun f => mem_ddfRec, ddfRec_pairwise _⟩

set_option maxRecDepth 40000 in
/-- Counterexample to claim C1 as stated: hosting `page.html` whose
single reference reports zero versions succeeds but writes the
original bytes unchanged, so the reference token is left in its
original inline-marker form instead of being replaced by the bare
filename. -/
theorem c1_counterexample_token_left :
    (host_artifact "page.html" none (some (demoCtx svcAllFail)) none (some ws0)).1.lookup
      "status" = some (PyVal.s "success") ∧
    lastWrite (host_artifact "page.html" none (some (demoCtx svcAllFail)) none (some ws0)).2 =
      some ("page.html", utf8Encode htmlAllFail.data) ∧
    bytesContain "«artifact_content:missing.png >>> format:datauri»"
      (utf8Encode htmlAllFail.data) = true := by
  decide

set_option maxRecDepth 40000 in
/-- Claim C1 (amended): replacement is guarded by a nonempty filename
map.  First branch: when every referenced fetch fails, the HTML bytes
are written unchanged — reference tokens stay in their original
inline-marker form — and the operation still returns a success payload
with no referenced-artifact entries.  Second branch: when at least one
referenced fetch succeeds, the bytes written are the UTF-8 encoding of
the rewritten HTML, which stands in the rewriting relation to the
decoded HTML — every reference token is replaced by the filename map
entry of its stripped filename or by that bare filename itself —
where every map entry is a reference hosted successfully under exactly
that hosted filename and every failed reference is absent from the map
(so its token falls back to the bare original filename); the status is
success.  The final conjunct shows the mixed scenario concretely. -/
theorem c1_amended_guarded_replacement :
    (∀ (af : String) (custom : Option String) (svc : ArtifactService) (ic : InvocationContext)
      (cfg : Option (List (String × String))) (ws : ArtifactWebServer) (v : Int)
      (bytes : List Nat) (html : List Char) (evs evs2 : List Event),
      ic.artifact_service = some svc →
      pyTruthyOpt ic.app_name = true →
      pyTruthyOpt ic.user_id = true →
      ic.session_id ≠ "" →
      resolveVersion svc (pyRsplitColon af).1 (pyRsplitColon af).2 = (Except.ok v, evs) →
      loadStep svc (pyRsplitColon af).1 v = (Except.ok bytes, evs2) →
      isHtmlName (resolveHostedFilename custom (pyRsplitColon af).1) = true →
      utf8Decode? bytes = some html →
      (∀ r ∈ _extract_artifact_references (String.mk html),
        ∃ n m, (_host_single_artifact r none svc ws ((cfg.getD []).lookup "base_url")).1 =
          SingleRes.fail n m) →
      (host_artifact af custom (some ⟨some ic⟩) cfg (some ws)).1 =
        successDict (pyRsplitColon af).1 v (resolveHostedFilename custom (pyRsplitColon af).1)
          (ws.get_url (resolveHostedFilename custom (pyRsplitColon af).1)
            ((cfg.getD []).lookup "base_url")) [] ∧
      lastWrite (host_artifact af custom (some ⟨some ic⟩) cfg (some ws)).2 =
        some (resolveHostedFilename custom (pyRsplitColon af).1, bytes)) ∧
    (∀ (af : String) (custom : Option String) (svc : ArtifactService) (ic : InvocationContext)
      (cfg : Option (List (String × String))) (ws : ArtifactWebServer) (v : Int)
      (bytes : List Nat) (html : List Char) (evs evs2 : List Event),
      ic.artifact_service = some svc →
      pyTruthyOpt ic.app_name = true →
      pyTruthyOpt ic.user_id = true →
      ic.session_id ≠ "" →
      resolveVersion svc (pyRsplitColon af).1 (pyRsplitColon af).2 = (Except.ok v, evs) →
      loadStep svc (pyRsplitColon af).1 v = (Except.ok bytes, evs2) →
      isHtmlName (resolveHostedFilename custom (pyRsplitColon af).1) = true →
      utf8Decode? bytes = some html →
      (∃ r ∈ _extract_artifact_references (String.mk html), ∃ fb v2 hf url,
        (_host_single_artifact r none svc ws ((cfg.getD []).lookup "base_url")).1 =
          SingleRes.ok fb v2 hf url) →
      (host_artifact af custom (some ⟨some ic⟩) cfg (some ws)).1 =
        successDict (pyRsplitColon af).1 v (resolveHostedFilename custom (pyRsplitColon af).1)
          (ws.get_url (resolveHostedFilename custom (pyRsplitColon af).1)
            ((cfg.getD []).lookup "base_url"))
          (hostRefsLoop svc ws ((cfg.getD []).lookup "base_url")
            (_extract_artifact_references (String.mk html))).2.1 ∧
      lastWrite (host_artifact af custom (some ⟨some ic⟩) cfg (some ws)).2 =
        some (resolveHostedFilename custom (pyRsplitColon af).1,
          utf8Encode (_replace_artifact_references (String.mk html)
            (hostRefsLoop svc ws ((cfg.getD []).lookup "base_url")
              (_extract_artifact_references (String.mk html))).1).data) ∧
      Rewrites (hostRefsLoop svc ws ((cfg.getD []).lookup "base_url")
          (_extract_artifact_references (String.mk html))).1 html
        (_replace_artifact_references (String.mk html)
          (hostRefsLoop svc ws ((cfg.getD []).lookup "base_url")
            (_extract_artifact_references (String.mk html))).1).data ∧
      (∀ pr ∈ (hostRefsLoop svc ws ((cfg.getD []).lookup "base_url")
          (_extract_artifact_references (String.mk html))).1,
        ∃ fb v2 url, (_host_single_artifact pr.1 none svc ws
          ((cfg.getD []).lookup "base_url")).1 = SingleRes.ok fb v2 pr.2 url) ∧
      (∀ (r n m : String),
        (_host_single_artifact r none svc ws ((cfg.getD []).lookup "base_url")).1 =
          SingleRes.fail n m →
        ((hostRefsLoop svc ws ((cfg.getD []).lookup "base_url")
          (_extract_artifact_references (String.mk html))).1).lookup r = none)) ∧
    ((host_artifact "page.html" none (some (demoCtx svcMix)) none (some ws0)).1.lookup
        "status" = some (PyVal.s "success") ∧
     lastWrite (host_artifact "page.html" none (some (demoCtx svcMix)) none (some ws0)).2 =
      some ("page.html", utf8Encode "<img src=\"ok.png\"><img src=\"missing.png\">".data) ∧
     bytesContain "«artifact_content:"
       (utf8Encode "<img src=\"ok.png\"><img src=\"missing.png\">".data) = false) := by
  refine ⟨?_, ?_, ?_⟩
  · intro af custom svc ic cfg ws v bytes html evs evs2 hsvc happ huser hsess hver hload hhtml
      hdec hfail
    have hloop := @hostRefsLoop_all_fail svc ws ((cfg.getD []).lookup "base_url")
      (_extract_artifact_references (String.mk html)) hfail
    have hpr : ∃ E, processHtmlRefs svc ws ((cfg.getD []).lookup "base_url") bytes =
        (bytes, [], E) := by
      simp only [processHtmlRefs, hdec]
      by_cases hre : (_extract_artifact_references (String.mk html)).isEmpty
      · rw [if_pos hre]
        exact ⟨[], rfl⟩
      · rw [if_neg hre]
        rw [if_pos (by simp [hloop.1])]
        rw [hloop.2]
        exact ⟨_, rfl⟩
    obtain ⟨E, hpr⟩ := hpr
    simp only [host_artifact, hostArtifactBody, hsvc, happ, huser, hver, hload]
    rw [if_pos (by simp [hsess]), if_pos hhtml, hpr]
    refine ⟨rfl, ?_⟩
    simp [lastWrite, List.foldl_append]
  · intro af custom svc ic cfg ws v bytes html evs evs2 hsvc happ huser hsess hver hload hhtml
      hdec hsucc
    have hne : _extract_artifact_references (String.mk html) ≠ [] := by
      obtain ⟨r, hr, _⟩ := hsucc
      exact List.ne_nil_of_mem hr
    have hmapne := hostRefsLoop_ne_nil hsucc
    have hpr : processHtmlRefs svc ws ((cfg.getD []).lookup "base_url") bytes =
        (utf8Encode (_replace_artifact_references (String.mk html)
            (hostRefsLoop svc ws ((cfg.getD []).lookup "base_url")
              (_extract_artifact_references (String.mk html))).1).data,
         (hostRefsLoop svc ws ((cfg.getD []).lookup "base_url")
            (_extract_artifact_references (String.mk html))).2.1,
         (hostRefsLoop svc ws ((cfg.getD []).lookup "base_url")
            (_extract_artifact_references (String.mk html))).2.2) := by
      simp only [processHtmlRefs, hdec]
      rw [if_neg (by simp [hne]), if_neg (by simp [hmapne])]
    refine ⟨?_, ?_, ?_, ?_, ?_⟩
    · simp only [host_artifact, hostArtifactBody, hsvc, happ, huser, hver, hload]
      rw [if_pos (by simp [hsess]), if_pos hhtml, hpr]
    · simp only [host_artifact, hostArtifactBody, hsvc, happ, huser, hver, hload]
      rw [if_pos (by simp [hsess]), if_pos hhtml, hpr]
      simp [lastWrite, List.foldl_append]
    · exact replace_artifact_references_rewrites (String.mk html) _
    · intro pr hpr2
      exact hostRefsLoop_map_mem hpr2
    · intro r n m hfr
      exact hostRefsLoop_fail_lookup hfr
  · exact ⟨by decide, by decide, by decide⟩

set_option maxRecDepth 40000 in
/-- Witness for the amended C1: the all-fail branch at the
zero-version scenario and the success branch at the mixed scenario. -/
theorem c1_amended_guarded_replacement_witness :
    ((host_artifact "page.html" none (some (demoCtx svcAllFail)) none (some ws0)).1 =
      successDict "page.html" 1 "page.html" "http://127.0.0.1:8080/page.html" [] ∧
    lastWrite (host_artifact "page.html" none (some (demoCtx svcAllFail)) none (some ws0)).2 =
      some ("page.html", utf8Encode htmlAllFail.data)) ∧
    ((host_artifact "page.html" none (some (demoCtx svcMix)) none (some ws0)).1 =
      successDict "page.html" 1 "page.html" "http://127.0.0.1:8080/page.html"
        [[("filename", "ok.png"), ("hosted_filename", "ok.png"),
          ("url", "http://127.0.0.1:8080/ok.png")]] ∧
    lastWrite (host_artifact "page.html" none (some (demoCtx svcMix)) none (some ws0)).2 =
      some ("page.html", utf8Encode "<img src=\"ok.png\"><img src=\"missing.png\">".data)) := by
  have h := c1_amended_guarded_replacement.1 "page.html" none svcAllFail
    ⟨some "app", some "user", "sess", some svcAllFail⟩ none ws0 1 (utf8Encode htmlAllFail.data)
    htmlAllFail.data [Event.listVersions "page.html"] [Event.loadArtifact "page.html" 1]
    rfl rfl rfl (by decide) rfl rfl (by decide) (by decide)
    (by
      intro r hr
      have hd : _extract_artifact_references (String.mk htmlAllFail.data) = ["missing.png"] := by
        decide
      rw [hd] at hr
      have hr2 : r = "missing.png" := by simpa using hr
      subst hr2
      exact ⟨"missing.png", "Artifact " ++ pyQuote ++ "missing.png" ++ pyQuote ++ " not found.",
        by decide⟩)
  have h2 := c1_amended_guarded_replacement.2.1 "page.html" none svcMix
    ⟨some "app", some "user", "sess", some svcMix⟩ none ws0 1 (utf8Encode mixedHtml.data)
    mixedHtml.data [Event.listVersions "page.html"] [Event.loadArtifact "page.html" 1]
    rfl rfl rfl (by decide) rfl rfl (by decide) (by decide)
    ⟨"ok.png", by decide, "ok.png", 1, "ok.png", "http://127.0.0.1:8080/ok.png", by decide⟩
  exact ⟨⟨h.1.trans (by decide), h.2.trans (by decide)⟩,
    ⟨h2.1.trans (by decide), h2.2.1.trans (by decide)⟩⟩
